import Mathlib

/-!
Verification of the osf4/socks5 SOCKS5 proxy library.

The Go sources are shallowly embedded: Go byte slices and strings become
lists of naturals (every Go string is a byte sequence), socket effects
become explicit state records, and fallible operations return Option or
Except.  Definitions follow the Go source function by function; the Go
standard-library net helpers (ParseIP, IP.String, SplitHostPort,
strconv.ParseUint) that the repository calls are modelled from the Go
library semantics.
-/

/-- A Go string or byte slice: a list of byte values. -/
abbrev GoString := List Nat

/-- Convert an ASCII Lean string literal to its Go byte-list form. -/
def gs (s : String) : GoString := s.data.map Char.toNat

/-- Errors of the library.  The repository distinguishes plain protocol or
connection errors (errorx types) from the SOCKS-reply-bearing error type
(socks5.Error, carrying a REP code); wrapped keeps track of errorx wrapping. -/
inductive GoErr where
  | protocol : GoErr
  | eof : GoErr
  | socks (code : Nat) : GoErr
  | wrapped (inner : GoErr) : GoErr
deriving DecidableEq, Repr

/-- Reply code constants (source: repType constants). -/
def RepSucceeded : Nat := 0x00

def RepServerFailure : Nat := 0x01

def RepConnNotAllowed : Nat := 0x02

def RepNetworkUnreachable : Nat := 0x03

def RepHostUnreachable : Nat := 0x04

def RepConnRefused : Nat := 0x05

def RepTTLExpired : Nat := 0x06

def RepCmdNotSupported : Nat := 0x07

def RepAddrNotSupported : Nat := 0x08

/-- Modelled from the spec: the protocol version byte is the constant 0x05 on
every message (the Version constant is declared in a repository file that is
not among the provided sources). -/
def Version : Nat := 0x05

/-- Modelled from the spec: every decoder rejects a message whose version byte
differs from 0x05 (the isSOCKS5 helper is declared in a repository file that
is not among the provided sources). -/
def isSOCKS5 (v : Nat) : Bool := v == Version

/-- Authentication method constants (source: authMethod constants). -/
def MethodNotRequired : Nat := 0x00

def MethodPassword : Nat := 0x02

def MethodNoAcceptable : Nat := 0xFF

/-- Source: SOCKSError.  A socks5.Error is built from a reply code and a
cause; if the code is RepSucceeded, nil is returned instead. -/
def SOCKSError (code : Nat) : Option GoErr :=
  if code = RepSucceeded then none else some (GoErr.socks code)

/-! ### errio.ErrReader (src/internal/errio/errio.go)

The underlying io.Reader is modelled as an infinite sequence of call
results (bytes-read count and error) indexed by the number of calls made
so far; the calls counter records how often the underlying reader was
invoked. -/

structure ErrReaderSt where
  err : Option GoErr
  results : Nat → Nat × Option GoErr
  calls : Nat

/-- Source: ErrReader.Read.  If an error is already recorded, return 0 and
that error without touching the underlying reader; otherwise perform one
underlying read and record its error verbatim. -/
def ErrReader.Read (r : ErrReaderSt) : (Nat × Option GoErr) × ErrReaderSt :=
  match r.err with
  | some e => ((0, some e), r)
  | none =>
    let res := r.results r.calls
    ((res.1, res.2), { err := res.2, results := r.results, calls := r.calls + 1 })

/-- Source: ErrReader.Wrap.  Returns nil when no error is recorded and the
errorx-wrapped recorded error otherwise. -/
def ErrReader.Wrap (r : ErrReaderSt) : Option GoErr :=
  match r.err with
  | none => none
  | some e => some (GoErr.wrapped e)

/-! ### Conn (Conn.Close, Conn.Alive)

The raw net.Conn is modelled by the number of Close calls it has received,
which is the observable effect of Conn.Close on the wrapped socket. -/

structure Conn where
  alive : Bool
  rawCloseCount : Nat
deriving DecidableEq, Repr

/-- Source: NewConn starts with alive = true. -/
def NewConn : Conn := ⟨true, 0⟩

/-- Source: Conn.Close sets alive to false and unconditionally calls Close on
the raw connection; there is no already-closed guard. -/
def Conn.Close (c : Conn) : Conn := ⟨false, c.rawCloseCount + 1⟩

/-! ### UDP association close coupling (UDPConn.Close, udpConn.Close,
UDPConn.onTCPClose)

The association's sockets are modelled by closed flags.  A client-side
UDPConn owns a control TCP connection and a data UDP socket; the
server-side udpConn owns an income UDP socket plus an outcome UDPConn
whose control is the client's TCP connection. -/

structure UDPConnState where
  controlClosed : Bool
  dataClosed : Bool
deriving DecidableEq, Repr

/-- Source: UDPConn.Close calls c.control.Close() and then c.data.Close(). -/
def UDPConn.Close (_s : UDPConnState) : UDPConnState := ⟨true, true⟩

/-- Source: UDPConn.onTCPClose waits for the control TCP read to complete and
then calls c.Close(); this is the state it leaves once the control TCP has
closed. -/
def UDPConn.onTCPClose (s : UDPConnState) : UDPConnState := UDPConn.Close s

structure ServerUDPConnState where
  incomeClosed : Bool
  outcome : UDPConnState
deriving DecidableEq, Repr

/-- Source: udpConn.Close calls c.income.Close() and c.outcome.Close(), and
the outcome is a UDPConn whose control is the client's TCP connection. -/
def udpConn.Close (s : ServerUDPConnState) : ServerUDPConnState :=
  ⟨true, UDPConn.Close s.outcome⟩

/-! ### Password authentication (PassAuth) -/

structure PassRequest where
  uname : GoString
  passwd : GoString
deriving DecidableEq, Repr

structure PassReply where
  Status : Nat
deriving DecidableEq, Repr

def statusOK : Nat := 0x00

def statusFailure : Nat := 0x01

structure PassAuth where
  user : GoString
  pass : GoString
deriving DecidableEq, Repr

/-- Source: PassAuth.validCredentials compares uname and passwd byte-for-byte
with the configured credentials (bytes.Equal). -/
def PassAuth.validCredentials (a : PassAuth) (uname passwd : GoString) : Bool :=
  (a.user == uname) && (a.pass == passwd)

/-- Source: PassAuth.Reply after the request has been read.  The source calls
a.validCredentials(a.user, a.pass) - the configured credentials themselves,
not the request's - and after the failure branch falls through to write a
success reply unconditionally.  The result is the list of replies written and
the returned error. -/
def PassAuth.Reply (a : PassAuth) (_req : PassRequest) : List PassReply × Option GoErr :=
  let failWrites :=
    if !(a.validCredentials a.user a.pass) then [(⟨statusFailure⟩ : PassReply)] else []
  (failWrites ++ [⟨statusOK⟩], none)

/-! ### Negotiation (negotiator.Reply) and Server.serve error path -/

structure NegotiationRequest where
  Methods : List Nat
deriving DecidableEq, Repr

structure NegotiationReply where
  Method : Nat
deriving DecidableEq, Repr

/-- Source: isMethodSupported - true if the list contains the method. -/
def isMethodSupported (method : Nat) (methods : List Nat) : Bool :=
  methods.contains method

/-- Source: negotiator.Reply after the request has been read: if the client's
list does not contain the configured method, write a 0xFF reply and return an
error; otherwise write a reply carrying the method.  The result is the list
of replies written and the returned error. -/
def negotiator.Reply (method : Nat) (req : NegotiationRequest) :
    List NegotiationReply × Option GoErr :=
  if !(isMethodSupported method req.Methods) then
    ([⟨MethodNoAcceptable⟩], some GoErr.protocol)
  else
    ([⟨method⟩], none)

/-- Observable steps of Server.serve. -/
inductive ServeStep where
  | logError
  | closeClient
  | transfer
deriving DecidableEq, Repr

/-- Source: Server.serve.  On an authentication (negotiation or sub-protocol)
error it logs the error and returns; on a handle error it logs and returns;
on success it transfers and then closes the connection pair. -/
def Server.serveSteps (authResult : Option GoErr) (handleResult : Option GoErr) :
    List ServeStep :=
  match authResult with
  | some _ => [ServeStep.logError]
  | none =>
    match handleResult with
    | some _ => [ServeStep.logError]
    | none => [ServeStep.transfer, ServeStep.closeClient]

/-! ### Theorems -/

/-- C1: the claim states that on a credential mismatch PassAuth.Reply sends a
failure reply and returns an error, and on a match sends exactly one success
reply and returns nil.  The source instead validates the configured
credentials against themselves, so for every configured pair and every
received request - matching or not - it writes exactly one success reply
(STATUS = 0x00) and returns nil.  In particular the configured ("u","p")
server accepts the mismatching request ("u","x"). -/
theorem passauth_reply_always_succeeds :
    (∀ (a : PassAuth) (req : PassRequest),
      PassAuth.Reply a req = ([⟨statusOK⟩], none)) ∧
    PassAuth.Reply ⟨gs "u", gs "p"⟩ ⟨gs "u", gs "x"⟩ = ([⟨statusOK⟩], none) := by
  constructor
  · intro a req
    simp [PassAuth.Reply, PassAuth.validCredentials]
  · simp [PassAuth.Reply, PassAuth.validCredentials]

/-- C3 counterexample: the claim states that closing either UDP socket of an
association does not close the controlling TCP connection.  In the source,
client-side UDPConn.Close closes the control TCP, and server-side
udpConn.Close closes the client's control TCP through outcome.Close. -/
theorem udp_close_closes_control_tcp_cex :
    (UDPConn.Close ⟨false, false⟩).controlClosed = true ∧
    ((udpConn.Close ⟨false, ⟨false, false⟩⟩).outcome).controlClosed = true := by
  constructor <;> rfl

/-- C3 amended: UDPConn.Close closes both the control TCP and the UDP data
socket; udpConn.Close closes the income UDP socket and, via the outcome
UDPConn, both the outcome UDP socket and the control TCP; the reverse
coupling holds as well - when the control TCP closes, onTCPClose closes the
association's sockets. -/
theorem udp_close_coupling :
    (∀ s : UDPConnState, UDPConn.Close s = ⟨true, true⟩) ∧
    (∀ s : ServerUDPConnState, udpConn.Close s = ⟨true, ⟨true, true⟩⟩) ∧
    (∀ s : UDPConnState, UDPConn.onTCPClose s = ⟨true, true⟩) := by
  refine ⟨fun s => rfl, fun s => rfl, fun s => rfl⟩

/-- C7 counterexample: with configured method 0x02 and a client list holding
only 0x00, negotiator.Reply writes a 0xFF reply and returns an error, but
Server.serve then merely logs the error and returns - the claimed close of
the client socket never happens on this path. -/
theorem negotiator_reply_no_close_cex :
    negotiator.Reply MethodPassword ⟨[MethodNotRequired]⟩ =
      ([⟨MethodNoAcceptable⟩], some GoErr.protocol) ∧
    Server.serveSteps (some GoErr.protocol) none = [ServeStep.logError] ∧
    ServeStep.closeClient ∉ Server.serveSteps (some GoErr.protocol) none := by
  refine ⟨rfl, rfl, by decide⟩

/-- C7 amended: when the client's method list does not contain the configured
method, the server replies 0xFF and returns an error, but the caller
(Server.serve) only logs the error and returns without closing the client
socket; when the list does contain the configured method M, the server
replies with M. -/
theorem negotiator_reply_behavior :
    (∀ (m : Nat) (req : NegotiationRequest),
      isMethodSupported m req.Methods = false →
      negotiator.Reply m req = ([⟨MethodNoAcceptable⟩], some GoErr.protocol)) ∧
    (∀ (m : Nat) (req : NegotiationRequest),
      isMethodSupported m req.Methods = true →
      negotiator.Reply m req = ([⟨m⟩], none)) ∧
    (∀ (e : GoErr) (hr : Option GoErr),
      ServeStep.closeClient ∉ Server.serveSteps (some e) hr) := by
  refine ⟨?_, ?_, ?_⟩
  · intro m req h
    simp [negotiator.Reply, h]
  · intro m req h
    simp [negotiator.Reply, h]
  · intro e hr
    simp [Server.serveSteps]

/-- C7 witness for the amended theorem at concrete inputs. -/
theorem negotiator_reply_behavior_witness :
    negotiator.Reply MethodPassword ⟨[MethodNotRequired]⟩ =
      ([⟨MethodNoAcceptable⟩], some GoErr.protocol) ∧
    negotiator.Reply MethodNotRequired ⟨[MethodNotRequired, MethodPassword]⟩ =
      ([⟨MethodNotRequired⟩], none) ∧
    ServeStep.closeClient ∉ Server.serveSteps (some GoErr.protocol) none :=
  ⟨negotiator_reply_behavior.1 MethodPassword ⟨[MethodNotRequired]⟩ (by decide),
   negotiator_reply_behavior.2.1 MethodNotRequired ⟨[MethodNotRequired, MethodPassword]⟩
     (by decide),
   negotiator_reply_behavior.2.2 GoErr.protocol none⟩

/-- C8 counterexample: the claim states that every close after the first is a
no-op.  Closing a fresh Conn twice is not the same as closing it once: the
second Conn.Close invokes Close on the raw connection again. -/
theorem conn_close_not_noop_cex :
    Conn.Close (Conn.Close NewConn) ≠ Conn.Close NewConn ∧
    (Conn.Close (Conn.Close NewConn)).rawCloseCount = 2 := by
  refine ⟨by decide, rfl⟩

/-- C8 amended: every Conn.Close sets alive to false, so the alive bit goes
from true to false on the first close and stays false afterwards; but closes
after the first are not no-ops - each call invokes Close on the raw
connection again. -/
theorem conn_close_behavior :
    NewConn.alive = true ∧
    (∀ c : Conn, (Conn.Close c).alive = false) ∧
    (∀ c : Conn, (Conn.Close c).rawCloseCount = c.rawCloseCount + 1) := by
  refine ⟨rfl, fun c => rfl, fun c => rfl⟩

/-- C10: ErrReader's error is sticky.  Once an error is recorded, every Read
returns 0 bytes and that same error and leaves the state - including the
count of underlying-reader invocations - unchanged; whenever a Read returns
an error, that error is recorded in the resulting state; and Wrap returns
nil exactly when no error has been recorded. -/
theorem errreader_sticky :
    (∀ (r : ErrReaderSt) (e : GoErr), r.err = some e →
      ErrReader.Read r = ((0, some e), r)) ∧
    (∀ (r r' : ErrReaderSt) (n : Nat) (e : GoErr),
      ErrReader.Read r = ((n, some e), r') →
      r'.err = some e ∧ ErrReader.Read r' = ((0, some e), r')) ∧
    (∀ r : ErrReaderSt, ErrReader.Wrap r = none ↔ r.err = none) := by
  refine ⟨?_, ?_, ?_⟩
  · intro r e h
    simp [ErrReader.Read, h]
  · intro r r' n e h
    rcases hr : r.err with _ | e0
    · have h2 : ErrReader.Read r =
        (((r.results r.calls).1, (r.results r.calls).2),
          { err := (r.results r.calls).2, results := r.results, calls := r.calls + 1 }) := by
        simp [ErrReader.Read, hr]
      rw [h2] at h
      have he : (r.results r.calls).2 = some e := by
        have := congrArg (fun p => p.1.2) h
        simpa using this
      have hst : r' = { err := some e, results := r.results, calls := r.calls + 1 } := by
        have := congrArg (fun p => p.2) h
        simp at this
        rw [← this, he]
      constructor
      · rw [hst]
      · rw [hst]
        simp [ErrReader.Read]
    · have h2 : ErrReader.Read r = ((0, some e0), r) := by
        simp [ErrReader.Read, hr]
      rw [h2] at h
      have he : e0 = e := by
        have := congrArg (fun p => p.1.2) h
        simpa using this
      have hst : r' = r := by
        have := congrArg (fun p => p.2) h
        simpa using this.symm
      subst he hst
      exact ⟨hr, by simp [ErrReader.Read, hr]⟩
  · intro r
    cases hr : r.err <;> simp [ErrReader.Wrap, hr]

/-- C10 witness: a reader with a recorded EOF error keeps returning it with 0
bytes and an unchanged state, and Wrap of a fresh reader is nil. -/
theorem errreader_sticky_witness :
    ErrReader.Read ⟨some GoErr.eof, fun _ => (0, none), 3⟩ =
      ((0, some GoErr.eof), ⟨some GoErr.eof, fun _ => (0, none), 3⟩) ∧
    (ErrReader.Wrap ⟨none, fun _ => (0, none), 0⟩ = none ↔
      (⟨none, fun _ => (0, none), 0⟩ : ErrReaderSt).err = none) :=
  ⟨errreader_sticky.1 ⟨some GoErr.eof, fun _ => (0, none), 3⟩ GoErr.eof rfl,
   errreader_sticky.2.2 ⟨none, fun _ => (0, none), 0⟩⟩

/-! ### Model of the Go standard-library net/netip and strconv helpers

The repository calls net.ParseIP, net.IP.String, net.IP.To4/To16,
net.SplitHostPort and strconv.ParseUint.  These are modelled below from the
Go standard library semantics; characters are byte values (46 is the dot,
58 the colon, 37 the percent sign, 91 and 93 the square brackets). -/

def isDigit (c : Nat) : Bool := 48 ≤ c && c ≤ 57

/-- Decimal value of a digit string. -/
def decVal (g : List Nat) : Nat := g.foldl (fun acc c => acc * 10 + (c - 48)) 0

/-- Decimal digit string of a number (ASCII bytes). -/
def decStrAux : Nat → Nat → List Nat
  | 0, _ => []
  | fuel + 1, n => if n < 10 then [48 + n] else decStrAux fuel (n / 10) ++ [48 + n % 10]

def decStr (n : Nat) : GoString := decStrAux (n + 1) n

/-- Lowercase hex digit character of a value below 16. -/
def hexChar (d : Nat) : Nat := if d < 10 then 48 + d else 87 + d

def hexStrAux : Nat → Nat → List Nat
  | 0, _ => []
  | fuel + 1, n => if n < 16 then [hexChar n] else hexStrAux fuel (n / 16) ++ [hexChar (n % 16)]

/-- Lowercase hex string of a number without leading zeros (Go appendHex). -/
def hexStr (n : Nat) : GoString := hexStrAux (n + 1) n

/-- Split a byte string on a separator, keeping empty groups. -/
def splitOn (sep : Nat) : List Nat → List (List Nat)
  | [] => [[]]
  | c :: rest =>
    match splitOn sep rest with
    | [] => [[c]]
    | g :: gl => if c = sep then [] :: g :: gl else (c :: g) :: gl

/-- One dotted-decimal IPv4 field (Go netip.parseIPv4Fields): nonempty, all
digits, no leading zero, value at most 255. -/
def v4Group (g : List Nat) : Option Nat :=
  if g = [] then none
  else if !(g.all isDigit) then none
  else if g.headI = 48 && decide (1 < g.length) then none
  else if decVal g ≤ 255 then some (decVal g) else none

/-- Go netip.parseIPv4: exactly four dotted-decimal fields. -/
def goParseIPv4 (s : GoString) : Option (List Nat) :=
  match splitOn 46 s with
  | [g1, g2, g3, g4] =>
    match v4Group g1, v4Group g2, v4Group g3, v4Group g4 with
    | some a, some b, some c, some d => some [a, b, c, d]
    | _, _, _, _ => none
  | _ => none

/-- The 12-byte v4-in-v6 padding (Go v4InV6Prefix). -/
def v4InV6Pad : List Nat := [0, 0, 0, 0, 0, 0, 0, 0, 0, 0, 255, 255]

def v4InV6 (p4 : List Nat) : List Nat := v4InV6Pad ++ p4

def hexDigitVal (c : Nat) : Option Nat :=
  if 48 ≤ c ∧ c ≤ 57 then some (c - 48)
  else if 97 ≤ c ∧ c ≤ 102 then some (c - 87)
  else if 65 ≤ c ∧ c ≤ 70 then some (c - 55)
  else none

/-- Consume up to four leading hex digits (Go netip.parseIPv6 inner loop):
returns the accumulated value, the digit count, and the rest; a fifth hex
digit is an error. -/
def takeHex : List Nat → Nat → Nat → Option (Nat × Nat × List Nat)
  | [], acc, cnt => some (acc, cnt, [])
  | c :: rest, acc, cnt =>
    match hexDigitVal c with
    | none => some (acc, cnt, c :: rest)
    | some v => if cnt ≥ 4 then none else takeHex rest (acc * 16 + v) (cnt + 1)

/-- Final expansion of an IPv6 parse (Go netip.parseIPv6 tail): if fewer than
16 bytes were produced there must be an ellipsis, which expands to zeros; if
all 16 were produced an ellipsis is an error. -/
def v6Finish (bytes : List Nat) (ell : Option Nat) : Option (List Nat) :=
  if bytes.length < 16 then
    match ell with
    | none => none
    | some e => some (bytes.take e ++ List.replicate (16 - bytes.length) 0 ++ bytes.drop e)
  else if bytes.length = 16 then
    match ell with
    | some _ => none
    | none => some bytes
  else none

/-- Main loop of Go netip.parseIPv6 over the remaining input, the bytes
produced so far and the ellipsis position. -/
def v6Loop : Nat → List Nat → List Nat → Option Nat → Option (List Nat)
  | 0, _, _, _ => none
  | fuel + 1, s, bytes, ell =>
    if bytes.length ≥ 16 then
      if s = [] then v6Finish bytes ell else none
    else
      match takeHex s 0 0 with
      | none => none
      | some (acc, cnt, rest) =>
        if cnt = 0 then none
        else
          match rest with
          | 46 :: _ =>
            if (ell = none ∧ bytes.length ≠ 12) ∨ bytes.length + 4 > 16 then none
            else
              match goParseIPv4 s with
              | none => none
              | some ip4 => v6Finish (bytes ++ ip4) ell
          | [] => v6Finish (bytes ++ [acc / 256, acc % 256]) ell
          | 58 :: [] => none
          | 58 :: 58 :: rest2 =>
            if ell.isSome then none
            else if rest2 = [] then
              v6Finish (bytes ++ [acc / 256, acc % 256])
                (some (bytes ++ [acc / 256, acc % 256]).length)
            else
              v6Loop fuel rest2 (bytes ++ [acc / 256, acc % 256])
                (some (bytes ++ [acc / 256, acc % 256]).length)
          | 58 :: rest2 => v6Loop fuel rest2 (bytes ++ [acc / 256, acc % 256]) ell
          | _ => none

/-- Go netip.parseIPv6 (as used through net.ParseIP, which in addition
rejects any zone suffix). -/
def goParseIPv6 (s : GoString) : Option (List Nat) :=
  if s.contains 37 then none
  else
    match s with
    | 58 :: 58 :: rest =>
      if rest = [] then some (List.replicate 16 0)
      else v6Loop (rest.length + 1) rest [] (some 0)
    | _ => v6Loop (s.length + 1) s [] none

/-- First dispatch character of Go netip.ParseAddr: the first dot, colon or
percent sign decides between the IPv4 parser, the IPv6 parser and failure. -/
def firstSpecial : List Nat → Option Nat
  | [] => none
  | c :: rest => if c = 46 ∨ c = 58 ∨ c = 37 then some c else firstSpecial rest

/-- Go net.ParseIP: a 16-byte address, or none when the string is not an IP
literal.  IPv4 literals yield the v4-in-v6 form (netip Addr.As16). -/
def goParseIP (s : GoString) : Option (List Nat) :=
  match firstSpecial s with
  | some 46 => (goParseIPv4 s).map v4InV6
  | some 58 => goParseIPv6 s
  | _ => none

/-- Go net.IP.To4. -/
def goTo4 (p : List Nat) : Option (List Nat) :=
  if p.length = 4 then some p
  else if p.length = 16 ∧ p.take 10 = List.replicate 10 0 ∧
      p.get? 10 = some 255 ∧ p.get? 11 = some 255 then some (p.drop 12)
  else none

/-- Go net.IP.To16. -/
def goTo16 (p : List Nat) : Option (List Nat) :=
  if p.length = 4 then some (v4InV6 p)
  else if p.length = 16 then some p
  else none

/-- The 16-bit fields of a 16-byte IPv6 address. -/
def v6Fields : List Nat → List Nat
  | a :: b :: rest => (a * 256 + b) :: v6Fields rest
  | _ => []

def zeroRunLen : List Nat → Nat
  | 0 :: rest => 1 + zeroRunLen rest
  | _ => 0

/-- First longest run of zero fields (Go net.IP.String e0/e1 scan): returns
the start index and length of the run, length 0 when there is none. -/
def maxZeroRunAux : List Nat → Nat → Nat × Nat → Nat × Nat
  | [], _, best => best
  | f :: rest, idx, best =>
    let r := if f = 0 then 1 + zeroRunLen rest else 0
    maxZeroRunAux rest (idx + 1) (if r > best.2 then (idx, r) else best)

def maxZeroRun (fs : List Nat) : Nat × Nat := maxZeroRunAux fs 0 (0, 0)

def joinSep (sep : Nat) (groups : List GoString) : GoString :=
  List.intercalate [sep] groups

def dottedQuad (p : List Nat) : GoString := joinSep 46 (p.map decStr)

/-- Canonical text of the eight fields with the first longest zero run of at
least two fields compressed to a double colon (Go net.IP.String v6 branch). -/
def v6String (fs : List Nat) : GoString :=
  let best := maxZeroRun fs
  if best.2 ≥ 2 then
    joinSep 58 ((fs.take best.1).map hexStr) ++ [58, 58] ++
      joinSep 58 ((fs.drop (best.1 + best.2)).map hexStr)
  else
    joinSep 58 (fs.map hexStr)

/-- Go net.IP.String. -/
def goIPString (p : List Nat) : GoString :=
  if p = [] then gs "<nil>"
  else
    match goTo4 p with
    | some p4 => dottedQuad p4
    | none =>
      if p.length = 16 then v6String (v6Fields p)
      else 63 :: (p.map (fun b => [hexChar (b / 16 % 16), hexChar (b % 16)])).flatten

/-! ### Byte-stream reading

Messages are decoded from a byte list; reading k bytes takes the first k
and fails when fewer are available (the errio sticky error then surfaces
from the decoder).  Reading zero bytes always succeeds, matching a
zero-length Read. -/

def readBytes (k : Nat) (s : List Nat) : Option (List Nat × List Nat) :=
  if k = 0 then some ([], s)
  else if s.length < k then none
  else some (s.take k, s.drop k)

/-- Big-endian two-byte encoding of a 16-bit port (binary.BigEndian.PutUint16). -/
def port2 (p : Nat) : List Nat := [p / 256 % 256, p % 256]

/-! ### Addr (src/addr.go) -/

/-- Source: addrType constants. -/
def AddrIPV4 : Nat := 0x01

def AddrIPv6 : Nat := 0x04

def AddrDomain : Nat := 0x03

/-- Source: the Addr structure - network, ATYP, host text, port. -/
structure Addr where
  network : GoString
  Atyp : Nat
  Host : GoString
  Port : Nat
deriving DecidableEq, Repr

/-- Source: NilAddr, the IPv4 0.0.0.0:0 address used in failure replies. -/
def NilAddr : Addr := ⟨gs "tcp", AddrIPV4, gs "0.0.0.0", 0⟩

/-- Source: ipLength - 4 for IPv4, 16 for IPv6, 0 otherwise. -/
def ipLength (version : Nat) : Nat :=
  if version = AddrIPV4 then 4
  else if version = AddrIPv6 then 16
  else 0

/-- Source: ipBytes - the last 4 bytes when To4 succeeds, the bytes as-is
when To16 succeeds, nil otherwise. -/
def ipBytes (ip : List Nat) : List Nat :=
  if (goTo4 ip).isSome then ip.drop 12
  else if (goTo16 ip).isSome then ip
  else []

/-- Source: Addr.Write.  Emits the ATYP byte, then for IP types the bytes of
the parsed host (an unparsable host is a protocol error), for DOMAIN one
length byte - byte(len(a.Host)), truncated modulo 256 with no length check -
followed by the host bytes, and finally the big-endian port.  The switch has
no default case, so an unknown ATYP emits only ATYP and port. -/
def Addr.write (a : Addr) : Option (List Nat) :=
  if a.Atyp = AddrIPV4 ∨ a.Atyp = AddrIPv6 then
    match goParseIP a.Host with
    | none => none
    | some ip => some (a.Atyp :: (ipBytes ip ++ port2 a.Port))
  else if a.Atyp = AddrDomain then
    some (a.Atyp :: (a.Host.length % 256) :: (a.Host ++ port2 a.Port))
  else
    some (a.Atyp :: port2 a.Port)

/-- Source: Addr.Read.  Reads the ATYP byte; for IP types reads 4 or 16 bytes
and renders them with net.IP.String; for DOMAIN reads a length byte and that
many host bytes; an unknown ATYP yields SOCKSError(RepAddrNotSupported);
finally reads the big-endian port.  Returns the address and the rest of the
input. -/
def Addr.read (network : GoString) (s : List Nat) : Except GoErr (Addr × List Nat) :=
  match readBytes 1 s with
  | some ([atyp], s1) =>
    if atyp = AddrIPV4 ∨ atyp = AddrIPv6 then
      match readBytes (ipLength atyp) s1 with
      | some (i, s2) =>
        match readBytes 2 s2 with
        | some ([p0, p1], s3) =>
          Except.ok (⟨network, atyp, goIPString i, p0 * 256 + p1⟩, s3)
        | _ => Except.error GoErr.protocol
      | none => Except.error GoErr.protocol
    else if atyp = AddrDomain then
      match readBytes 1 s1 with
      | some ([dlen], s2) =>
        match readBytes dlen s2 with
        | some (hostBytes, s3) =>
          match readBytes 2 s3 with
          | some ([p0, p1], s4) =>
            Except.ok (⟨network, atyp, hostBytes, p0 * 256 + p1⟩, s4)
          | _ => Except.error GoErr.protocol
        | none => Except.error GoErr.protocol
      | _ => Except.error GoErr.protocol
    else
      Except.error (GoErr.socks RepAddrNotSupported)
  | _ => Except.error GoErr.protocol

/-- Source: parseAtyp.  net.ParseIP of the host: To4 success means IPv4, To16
success means IPv6, everything else (including a failed parse, whose nil IP
fails both) is a domain. -/
def parseAtyp (host : GoString) : Nat :=
  match goParseIP host with
  | none => AddrDomain
  | some ip =>
    if (goTo4 ip).isSome then AddrIPV4
    else if (goTo16 ip).isSome then AddrIPv6
    else AddrDomain

/-- Go net.SplitHostPort. -/
def lastIndexOf (c : Nat) : List Nat → Option Nat
  | [] => none
  | x :: rest =>
    match lastIndexOf c rest with
    | some i => some (i + 1)
    | none => if x = c then some 0 else none

def indexOfFirst (c : Nat) : List Nat → Option Nat
  | [] => none
  | x :: rest =>
    if x = c then some 0
    else (indexOfFirst c rest).map (· + 1)

def goSplitHostPort (s : List Nat) : Option (List Nat × List Nat) :=
  match lastIndexOf 58 s with
  | none => none
  | some i =>
    if s.headI = 91 ∧ s ≠ [] then
      match indexOfFirst 93 s with
      | none => none
      | some e =>
        if e + 1 = s.length then none
        else if e + 1 = i then
          if (s.drop 1).contains 91 then none
          else if (s.drop (e + 1)).contains 93 then none
          else some ((s.take e).drop 1, s.drop (i + 1))
        else none
    else
      let host := s.take i
      if host.contains 58 then none
      else if s.contains 91 then none
      else if s.contains 93 then none
      else some (host, s.drop (i + 1))

/-- Go strconv.ParseUint(s, 10, 16): a nonempty unsigned decimal string whose
value fits 16 bits. -/
def goParseUint16 (s : List Nat) : Option Nat :=
  if s = [] then none
  else if !(s.all isDigit) then none
  else if decVal s < 65536 then some (decVal s) else none

/-- Source: ParseAddr.  Splits host and port, rewrites an empty host to
0.0.0.0, parses the port as a 16-bit decimal, and classifies the host. -/
def ParseAddr (network : GoString) (addr : GoString) : Option Addr :=
  match goSplitHostPort addr with
  | none => none
  | some (host0, portStr) =>
    let host := if host0 = [] then gs "0.0.0.0" else host0
    match goParseUint16 portStr with
    | none => none
    | some p => some ⟨network, parseAtyp host, host, p⟩

/-! ### Request and Reply (cmdType, repType, Request, Reply) -/

/-- Source: cmdType.Valid - true when the byte is below 0x04 (note that this
also accepts 0x00). -/
def cmdType.Valid (c : Nat) : Bool := c < 0x04

/-- Source: cmdType constants. -/
def CmdConnect : Nat := 0x01

def CmdBind : Nat := 0x02

def CmdUDP : Nat := 0x03

/-- Source: cmdType.Network - tcp for CONNECT and BIND, udp for UDP
ASSOCIATE, otherwise the literal unknown-network text. -/
def cmdType.Network (c : Nat) : GoString :=
  if c = CmdConnect ∨ c = CmdBind then gs "tcp"
  else if c = CmdUDP then gs "udp"
  else gs "unknown network"

/-- Source: repType.Valid - true when the byte is below 0x09. -/
def repType.Valid (r : Nat) : Bool := r < 0x09

structure Request where
  Cmd : Nat
  Dst : Addr
deriving DecidableEq, Repr

/-- Source: Request.Write - VER, CMD, RSV then the destination address. -/
def Request.write (r : Request) : Option (List Nat) :=
  match Addr.write r.Dst with
  | none => none
  | some ab => some ([Version, r.Cmd, 0x00] ++ ab)

/-- Source: Request.Read - three header bytes, version check, command
validity check (an invalid command is SOCKSError(RepCmdNotSupported)), then
the destination address read with the command's network. -/
def Request.read (s : List Nat) : Except GoErr (Request × List Nat) :=
  match readBytes 3 s with
  | some ([ver, cmd, _rsv], s1) =>
    if !(isSOCKS5 ver) then Except.error GoErr.protocol
    else if !(cmdType.Valid cmd) then Except.error (GoErr.socks RepCmdNotSupported)
    else
      match Addr.read (cmdType.Network cmd) s1 with
      | Except.ok (dst, s2) => Except.ok (⟨cmd, dst⟩, s2)
      | Except.error e => Except.error e
  | _ => Except.error GoErr.protocol

structure Reply where
  Rep : Nat
  Bnd : Addr
deriving DecidableEq, Repr

/-- Source: Reply.Write - VER, REP, RSV then the bound address. -/
def Reply.write (r : Reply) : Option (List Nat) :=
  match Addr.write r.Bnd with
  | none => none
  | some ab => some ([Version, r.Rep, 0x00] ++ ab)

/-- Source: Reply.Read - three header bytes, version check, reply-code
validity check, then the bound address read with an empty network string. -/
def Reply.read (s : List Nat) : Except GoErr (Reply × List Nat) :=
  match readBytes 3 s with
  | some ([ver, rep, _rsv], s1) =>
    if !(isSOCKS5 ver) then Except.error GoErr.protocol
    else if !(repType.Valid rep) then Except.error GoErr.protocol
    else
      match Addr.read [] s1 with
      | Except.ok (bnd, s2) => Except.ok (⟨rep, bnd⟩, s2)
      | Except.error e => Except.error e
  | _ => Except.error GoErr.protocol

/-! ### UDP header (UDPHeader) -/

structure UDPHeader where
  Frag : Nat
  Dst : Addr
  Data : List Nat
deriving DecidableEq, Repr

/-- Source: UDPHeader.Write - two reserved zero bytes, the fragment byte, the
destination address, then the payload. -/
def UDPHeader.write (h : UDPHeader) : Option (List Nat) :=
  match Addr.write h.Dst with
  | none => none
  | some ab => some ([0x00, 0x00, h.Frag] ++ ab ++ h.Data)

/-- Source: UDPHeader.Read - three bytes with the fragment in the third (the
reserved bytes are not checked), the destination address with network udp,
then io.ReadAll for the payload. -/
def UDPHeader.read (s : List Nat) : Except GoErr UDPHeader :=
  match readBytes 3 s with
  | some ([_r0, _r1, frag], s1) =>
    match Addr.read (gs "udp") s1 with
    | Except.ok (dst, s2) => Except.ok ⟨frag, dst, s2⟩
    | Except.error e => Except.error e
  | _ => Except.error GoErr.protocol

/-! ### Negotiation and password sub-negotiation codecs -/

/-- Source: NegotiationRequest.Write - VER, byte(len(Methods)), methods. -/
def NegotiationRequest.write (r : NegotiationRequest) : List Nat :=
  [Version, r.Methods.length % 256] ++ r.Methods

/-- Source: NegotiationRequest.Read - two bytes, version check, then NMETHODS
method bytes. -/
def NegotiationRequest.read (s : List Nat) :
    Except GoErr (NegotiationRequest × List Nat) :=
  match readBytes 2 s with
  | some ([ver, nmethods], s1) =>
    if !(isSOCKS5 ver) then Except.error GoErr.protocol
    else
      match readBytes nmethods s1 with
      | some (ms, s2) => Except.ok (⟨ms⟩, s2)
      | none => Except.error GoErr.protocol
  | _ => Except.error GoErr.protocol

/-- Source: NegotiationReply.Write - VER and the method byte. -/
def NegotiationReply.write (r : NegotiationReply) : List Nat :=
  [Version, r.Method]

/-- Source: NegotiationReply.Read - two bytes, version check, method byte. -/
def NegotiationReply.read (s : List Nat) :
    Except GoErr (NegotiationReply × List Nat) :=
  match readBytes 2 s with
  | some ([ver, m], s1) =>
    if !(isSOCKS5 ver) then Except.error GoErr.protocol
    else Except.ok (⟨m⟩, s1)
  | _ => Except.error GoErr.protocol

/-- Source: PassRequest.Write - SUBVER, ULEN, UNAME, PLEN, PASSWD with the
length bytes truncated to a byte. -/
def PassRequest.write (r : PassRequest) : List Nat :=
  [0x01, r.uname.length % 256] ++ r.uname ++ [r.passwd.length % 256] ++ r.passwd

/-- Source: PassRequest.Read - two bytes, sub-negotiation version check, ULEN
username bytes, a PLEN byte, PLEN password bytes. -/
def PassRequest.read (s : List Nat) : Except GoErr (PassRequest × List Nat) :=
  match readBytes 2 s with
  | some ([subver, ulen], s1) =>
    if subver ≠ 0x01 then Except.error GoErr.protocol
    else
      match readBytes ulen s1 with
      | some (uname, s2) =>
        match readBytes 1 s2 with
        | some ([plen], s3) =>
          match readBytes plen s3 with
          | some (passwd, s4) => Except.ok (⟨uname, passwd⟩, s4)
          | none => Except.error GoErr.protocol
        | _ => Except.error GoErr.protocol
      | none => Except.error GoErr.protocol
  | _ => Except.error GoErr.protocol

/-- Source: PassReply.Write - SUBVER and the status byte. -/
def PassReply.write (r : PassReply) : List Nat :=
  [0x01, r.Status]

/-- Source: PassReply.Read - two bytes, sub-negotiation version check, status
byte. -/
def PassReply.read (s : List Nat) : Except GoErr (PassReply × List Nat) :=
  match readBytes 2 s with
  | some ([subver, st], s1) =>
    if subver ≠ 0x01 then Except.error GoErr.protocol
    else Except.ok (⟨st⟩, s1)
  | _ => Except.error GoErr.protocol

/-! ### Server command handling (Server.sendFailReply, Server.handleCONNECT,
Server.handle error path)

The upstream dialer is external; Server.handleCONNECT is modelled over the
dial outcome, which on success carries the upstream socket's local address
(already converted by ParseNetAddr).  The model's value is the reply the
handler writes, or the error it returns. -/

/-- Source: Server.sendFailReply - the failure reply carries the error code
and NilAddr as BND. -/
def Server.sendFailReply (r : Nat) : Reply := ⟨r, NilAddr⟩

/-- Source: Server.handleCONNECT - a dial error is classified as
SOCKSError(RepHostUnreachable); on success the success reply carries the
upstream local address. -/
def Server.handleCONNECT (dialResult : Option Addr) : Except GoErr Reply :=
  match dialResult with
  | none => Except.error (GoErr.socks RepHostUnreachable)
  | some la => Except.ok ⟨RepSucceeded, la⟩

/-- Source: Server.handle error handling - when the handler returned a SOCKS
error the server writes exactly one failure reply carrying its code (and
closes the client); any other error writes no reply. -/
def Server.handleErrorReplies (e : Option GoErr) : List Reply :=
  match e with
  | some (GoErr.socks c) => [Server.sendFailReply c]
  | _ => []

/-! ### Helper lemmas about the byte-stream reader -/

theorem readBytes_cons1 (x : Nat) (l : List Nat) :
    readBytes 1 (x :: l) = some ([x], l) := rfl

theorem readBytes_cons2 (x y : Nat) (l : List Nat) :
    readBytes 2 (x :: y :: l) = some ([x, y], l) := rfl

theorem readBytes_cons3 (x y z : Nat) (l : List Nat) :
    readBytes 3 (x :: y :: z :: l) = some ([x, y, z], l) := rfl

theorem readBytes_len {k : Nat} (xs r : List Nat) (h : xs.length = k) :
    readBytes k (xs ++ r) = some (xs, r) := by
  subst h
  unfold readBytes
  rcases xs with _ | ⟨x, t⟩
  · rfl
  · rw [if_neg (by simp), if_neg (by simp [List.length_append])]
    rw [List.take_left, List.drop_left]

theorem port2_roundtrip (p : Nat) (hp : p < 65536) :
    p / 256 % 256 * 256 + p % 256 = p := by
  have h1 : p / 256 < 256 := Nat.div_lt_of_lt_mul (by omega)
  rw [Nat.mod_eq_of_lt h1]
  have h2 := Nat.div_add_mod p 256
  omega

/-- C2: the claim states that every CMD outside 0x01..0x03 is rejected with a
SOCKS error carrying REP = 0x07.  cmdType.Valid, documented as true exactly
for CONNECT, BIND and UDP ASSOCIATE, is implemented as c < 0x04 and therefore
also accepts 0x00: Request.Read accepts a request with CMD = 0x00 (with the
unknown-network text as the destination network).  Commands 0x04 and above
are rejected with REP = 0x07 and commands 0x01..0x03 are accepted, as
claimed. -/
theorem request_read_cmd_zero_accepted :
    cmdType.Valid 0x00 = true ∧
    Request.read [0x05, 0x00, 0x00, 0x01, 127, 0, 0, 1, 0, 80] =
      Except.ok (⟨0x00, ⟨gs "unknown network", AddrIPV4, gs "127.0.0.1", 80⟩⟩, []) ∧
    Request.read [0x05, 0x09, 0x00, 0x01, 127, 0, 0, 1, 0, 80] =
      Except.error (GoErr.socks RepCmdNotSupported) ∧
    Request.read [0x05, 0x04, 0x00, 0x01, 127, 0, 0, 1, 0, 80] =
      Except.error (GoErr.socks RepCmdNotSupported) ∧
    cmdType.Valid CmdConnect = true ∧ cmdType.Valid CmdBind = true ∧
    cmdType.Valid CmdUDP = true := by
  refine ⟨rfl, by rfl, by rfl, by rfl, rfl, rfl, rfl⟩

set_option maxRecDepth 8000 in
/-- C4 counterexample: the claim states that Addr.Write fails with an error
when a DOMAIN host is longer than 255 bytes.  On a 256-byte host it instead
succeeds, emitting a truncated length byte byte(256) = 0 followed by all 256
host bytes. -/
theorem addr_write_long_domain_cex :
    Addr.write ⟨gs "tcp", AddrDomain, List.replicate 256 97, 80⟩ =
      some (AddrDomain :: 0 :: (List.replicate 256 97 ++ [0, 80])) := by
  rfl

/-- C4 amended: Addr.Write on a DOMAIN address never fails because of the
host length; it emits one length byte equal to len(host) mod 256 followed by
the host bytes verbatim, so for every host of length at most 255 the length
byte equals len(host). -/
theorem addr_write_domain_behavior :
    ∀ a : Addr, a.Atyp = AddrDomain →
      Addr.write a = some (AddrDomain :: (a.Host.length % 256) :: (a.Host ++ port2 a.Port)) ∧
      (a.Host.length ≤ 255 → a.Host.length % 256 = a.Host.length) := by
  intro a h
  constructor
  · rw [Addr.write, if_neg, if_pos h, h]
    rw [h]
    intro hor
    rcases hor with h1 | h1 <;> simp [AddrDomain, AddrIPV4, AddrIPv6] at h1
  · intro hle
    exact Nat.mod_eq_of_lt (by omega)

/-- C4 witness for the amended theorem at a concrete 11-byte domain. -/
theorem addr_write_domain_behavior_witness :
    Addr.write ⟨gs "tcp", AddrDomain, gs "example.com", 80⟩ =
      some (AddrDomain :: ((gs "example.com").length % 256) ::
        (gs "example.com" ++ port2 80)) ∧
    ((gs "example.com").length ≤ 255 →
      (gs "example.com").length % 256 = (gs "example.com").length) :=
  addr_write_domain_behavior ⟨gs "tcp", AddrDomain, gs "example.com", 80⟩ rfl

/-- C6: every failure reply the server's command-handling error path writes
carries BND = NilAddr and the REP code of the SOCKS error that classified
the failure (non-SOCKS errors write no reply), and a dial failure in
handleCONNECT is classified as host-unreachable, REP = 0x04. -/
theorem fail_replies_nil_bnd :
    (∀ c : Nat, (Server.sendFailReply c).Bnd = NilAddr ∧ (Server.sendFailReply c).Rep = c) ∧
    (∀ (e : Option GoErr) (r : Reply), r ∈ Server.handleErrorReplies e →
      r.Bnd = NilAddr ∧ e = some (GoErr.socks r.Rep)) ∧
    Server.handleCONNECT none = Except.error (GoErr.socks RepHostUnreachable) ∧
    RepHostUnreachable = 0x04 := by
  refine ⟨fun c => ⟨rfl, rfl⟩, ?_, rfl, rfl⟩
  intro e r hr
  match e with
  | none => simp [Server.handleErrorReplies] at hr
  | some GoErr.protocol => simp [Server.handleErrorReplies] at hr
  | some GoErr.eof => simp [Server.handleErrorReplies] at hr
  | some (GoErr.wrapped i) => simp [Server.handleErrorReplies] at hr
  | some (GoErr.socks c) =>
    simp [Server.handleErrorReplies] at hr
    subst hr
    exact ⟨rfl, rfl⟩

/-- C6 witness: the host-unreachable failure reply for a failed CONNECT dial
carries BND = NilAddr and REP = 0x04. -/
theorem fail_replies_nil_bnd_witness :
    ((Server.sendFailReply RepHostUnreachable).Bnd = NilAddr ∧
      (Server.sendFailReply RepHostUnreachable).Rep = RepHostUnreachable) ∧
    ((Server.sendFailReply RepHostUnreachable).Bnd = NilAddr ∧
      some (GoErr.socks RepHostUnreachable) =
        some (GoErr.socks (Server.sendFailReply RepHostUnreachable).Rep)) :=
  ⟨fail_replies_nil_bnd.1 RepHostUnreachable,
   fail_replies_nil_bnd.2.1 (some (GoErr.socks RepHostUnreachable))
     (Server.sendFailReply RepHostUnreachable) (by decide)⟩

/-! ### Valid message instances

A valid instance is one a conforming peer can hold: byte fields fit a byte,
lengths encoded in one byte are at most 255, the port fits 16 bits, IP
hosts are in the canonical textual form of an address of the claimed ATYP
(the form net.IP.String produces and net.ParseIP reparses), and the
address's network string is the one the corresponding decoder assigns. -/

def isByteList (l : List Nat) : Bool := l.all (fun c => decide (c < 256))

def Addr.validB (a : Addr) : Bool :=
  decide (a.Port < 65536) &&
  (if a.Atyp = AddrIPV4 then
    match goParseIP a.Host with
    | some ip =>
      (goTo4 ip).isSome && decide (ip.length = 16) && (goIPString (ip.drop 12) == a.Host)
    | none => false
  else if a.Atyp = AddrIPv6 then
    match goParseIP a.Host with
    | some ip =>
      (goTo4 ip).isNone && decide (ip.length = 16) && (goIPString ip == a.Host)
    | none => false
  else if a.Atyp = AddrDomain then
    decide (a.Host.length ≤ 255) && isByteList a.Host
  else false)

def NegotiationRequest.validB (r : NegotiationRequest) : Bool :=
  decide (r.Methods.length ≤ 255) && isByteList r.Methods

def NegotiationReply.validB (r : NegotiationReply) : Bool :=
  decide (r.Method < 256)

def PassRequest.validB (r : PassRequest) : Bool :=
  decide (r.uname.length ≤ 255) && decide (r.passwd.length ≤ 255) &&
    isByteList r.uname && isByteList r.passwd

def PassReply.validB (r : PassReply) : Bool :=
  decide (r.Status < 256)

def Request.validB (r : Request) : Bool :=
  cmdType.Valid r.Cmd && Addr.validB r.Dst &&
    (r.Dst.network == cmdType.Network r.Cmd)

def Reply.validB (r : Reply) : Bool :=
  repType.Valid r.Rep && Addr.validB r.Bnd && (r.Bnd.network == ([] : List Nat))

def UDPHeader.validB (h : UDPHeader) : Bool :=
  decide (h.Frag < 256) && Addr.validB h.Dst && (h.Dst.network == gs "udp") &&
    isByteList h.Data

/-! ### Address round trip -/

theorem Addr_read_v4 (net i4 : List Nat) (hi : i4.length = 4) (p0 p1 : Nat)
    (rest : List Nat) :
    Addr.read net (AddrIPV4 :: (i4 ++ p0 :: p1 :: rest)) =
      Except.ok (⟨net, AddrIPV4, goIPString i4, p0 * 256 + p1⟩, rest) := by
  have h4 : readBytes 4 (i4 ++ p0 :: p1 :: rest) = some (i4, p0 :: p1 :: rest) :=
    readBytes_len i4 (p0 :: p1 :: rest) hi
  simp only [Addr.read, readBytes_cons1, ipLength, AddrIPV4, AddrIPv6, AddrDomain]
  norm_num
  simp only [h4, readBytes_cons2]

theorem Addr_read_v6 (net i16 : List Nat) (hi : i16.length = 16) (p0 p1 : Nat)
    (rest : List Nat) :
    Addr.read net (AddrIPv6 :: (i16 ++ p0 :: p1 :: rest)) =
      Except.ok (⟨net, AddrIPv6, goIPString i16, p0 * 256 + p1⟩, rest) := by
  have h16 : readBytes 16 (i16 ++ p0 :: p1 :: rest) = some (i16, p0 :: p1 :: rest) :=
    readBytes_len i16 (p0 :: p1 :: rest) hi
  simp only [Addr.read, readBytes_cons1, ipLength, AddrIPV4, AddrIPv6, AddrDomain]
  norm_num
  simp only [h16, readBytes_cons2]

theorem Addr_read_dom (net hostB : List Nat) (dlen : Nat) (hd : hostB.length = dlen)
    (p0 p1 : Nat) (rest : List Nat) :
    Addr.read net (AddrDomain :: dlen :: (hostB ++ p0 :: p1 :: rest)) =
      Except.ok (⟨net, AddrDomain, hostB, p0 * 256 + p1⟩, rest) := by
  have hb : readBytes dlen (hostB ++ p0 :: p1 :: rest) = some (hostB, p0 :: p1 :: rest) :=
    readBytes_len hostB (p0 :: p1 :: rest) hd
  simp only [Addr.read, readBytes_cons1, AddrIPV4, AddrIPv6, AddrDomain]
  norm_num
  simp only [hb, readBytes_cons2]

theorem Addr_write_read {a : Addr} (h : Addr.validB a = true) (rest : List Nat) :
    ∃ w, Addr.write a = some w ∧
      Addr.read a.network (w ++ rest) = Except.ok (a, rest) := by
  obtain ⟨net, atyp, host, port⟩ := a
  simp only [Addr.validB, Bool.and_eq_true, decide_eq_true_eq] at h
  obtain ⟨hport, h⟩ := h
  by_cases h1 : atyp = AddrIPV4
  · subst h1
    rw [if_pos rfl] at h
    cases hip : goParseIP host with
    | none => rw [hip] at h; exact absurd h (by simp)
    | some ip =>
      rw [hip] at h
      simp only [Bool.and_eq_true, decide_eq_true_eq, beq_iff_eq,
        Option.isSome_iff_exists] at h
      obtain ⟨⟨⟨p4, hp4⟩, hlen⟩, hstr⟩ := h
      refine ⟨AddrIPV4 :: (ipBytes ip ++ port2 port), ?_, ?_⟩
      · rw [Addr.write]
        simp [hip]
      · have hib : ipBytes ip = ip.drop 12 := by
          rw [ipBytes, if_pos]
          rw [hp4]
          rfl
        have hlen4 : (ip.drop 12).length = 4 := by
          rw [List.length_drop, hlen]
        rw [hib]
        have hsh : (AddrIPV4 :: (ip.drop 12 ++ port2 port)) ++ rest =
            AddrIPV4 :: (ip.drop 12 ++ (port / 256 % 256 :: port % 256 :: rest)) := by
          simp [port2, List.append_assoc]
        rw [hsh, Addr_read_v4 net (ip.drop 12) hlen4]
        rw [hstr, port2_roundtrip port hport]
  · by_cases h2 : atyp = AddrIPv6
    · subst h2
      rw [if_neg h1, if_pos rfl] at h
      cases hip : goParseIP host with
      | none => rw [hip] at h; exact absurd h (by simp)
      | some ip =>
        rw [hip] at h
        simp only [Bool.and_eq_true, decide_eq_true_eq, beq_iff_eq,
          Option.isNone_iff_eq_none] at h
        obtain ⟨⟨h4, hlen⟩, hstr⟩ := h
        refine ⟨AddrIPv6 :: (ipBytes ip ++ port2 port), ?_, ?_⟩
        · rw [Addr.write]
          simp [hip]
        · have hib : ipBytes ip = ip := by
            rw [ipBytes, if_neg, if_pos]
            · rw [goTo16, if_neg (by omega), if_pos hlen]
              rfl
            · rw [h4]
              simp
          rw [hib]
          have hsh : (AddrIPv6 :: (ip ++ port2 port)) ++ rest =
              AddrIPv6 :: (ip ++ (port / 256 % 256 :: port % 256 :: rest)) := by
            simp [port2, List.append_assoc]
          rw [hsh, Addr_read_v6 net ip hlen]
          rw [hstr, port2_roundtrip port hport]
    · by_cases h3 : atyp = AddrDomain
      · subst h3
        rw [if_neg h1, if_neg h2, if_pos rfl] at h
        simp only [Bool.and_eq_true, decide_eq_true_eq] at h
        obtain ⟨hle, _hbytes⟩ := h
        refine ⟨AddrDomain :: (host.length % 256) :: (host ++ port2 port), ?_, ?_⟩
        · rw [Addr.write]
          simp [AddrDomain, AddrIPV4, AddrIPv6]
        · have hmod : host.length % 256 = host.length := Nat.mod_eq_of_lt (by omega)
          have hsh : (AddrDomain :: (host.length % 256) :: (host ++ port2 port)) ++ rest =
              AddrDomain :: (host.length % 256) ::
                (host ++ (port / 256 % 256 :: port % 256 :: rest)) := by
            simp [port2, List.append_assoc]
          rw [hsh, hmod, Addr_read_dom net host host.length rfl]
          rw [port2_roundtrip port hport]
      · rw [if_neg h1, if_neg h2, if_neg h3] at h
        exact absurd h (by simp)

/-! ### Message round trips -/

theorem negReq_roundtrip (r : NegotiationRequest) (h : r.validB = true) :
    NegotiationRequest.read (NegotiationRequest.write r) = Except.ok (r, []) := by
  obtain ⟨ms⟩ := r
  simp only [NegotiationRequest.validB, Bool.and_eq_true, decide_eq_true_eq] at h
  obtain ⟨hle, _⟩ := h
  have hmod : ms.length % 256 = ms.length := Nat.mod_eq_of_lt (by omega)
  have hms : readBytes ms.length ms = some (ms, []) := by
    have := readBytes_len ms [] rfl
    rwa [List.append_nil] at this
  rw [show NegotiationRequest.write ⟨ms⟩ = Version :: (ms.length % 256) :: ms from rfl]
  simp only [NegotiationRequest.read, readBytes_cons2]
  simp [isSOCKS5, hmod, hms]

theorem negRep_roundtrip (r : NegotiationReply) (_h : r.validB = true) :
    NegotiationReply.read (NegotiationReply.write r) = Except.ok (r, []) := by
  obtain ⟨m⟩ := r
  rw [show NegotiationReply.write ⟨m⟩ = Version :: m :: [] from rfl]
  simp only [NegotiationReply.read, readBytes_cons2]
  simp [isSOCKS5]

theorem passReq_roundtrip (r : PassRequest) (h : r.validB = true) :
    PassRequest.read (PassRequest.write r) = Except.ok (r, []) := by
  obtain ⟨u, p⟩ := r
  simp only [PassRequest.validB, Bool.and_eq_true, decide_eq_true_eq] at h
  obtain ⟨⟨⟨hu, hp⟩, _⟩, _⟩ := h
  have hmu : u.length % 256 = u.length := Nat.mod_eq_of_lt (by omega)
  have hmp : p.length % 256 = p.length := Nat.mod_eq_of_lt (by omega)
  have hru : readBytes u.length (u ++ p.length :: p) =
      some (u, p.length :: p) := readBytes_len u _ rfl
  have hrp : readBytes p.length p = some (p, []) := by
    have := readBytes_len p [] rfl
    rwa [List.append_nil] at this
  rw [show PassRequest.write ⟨u, p⟩ =
    0x01 :: u.length :: (u ++ p.length :: p) from by
      simp [PassRequest.write, hmu, hmp]]
  simp only [PassRequest.read, readBytes_cons2]
  simp [hru, hrp, readBytes_cons1]

theorem passRep_roundtrip (r : PassReply) (_h : r.validB = true) :
    PassReply.read (PassReply.write r) = Except.ok (r, []) := by
  obtain ⟨st⟩ := r
  rw [show PassReply.write ⟨st⟩ = 0x01 :: st :: [] from rfl]
  simp only [PassReply.read, readBytes_cons2]
  simp

theorem request_roundtrip (r : Request) (h : r.validB = true) :
    ∃ w, Request.write r = some w ∧ Request.read w = Except.ok (r, []) := by
  obtain ⟨cmd, dst⟩ := r
  simp only [Request.validB, Bool.and_eq_true, beq_iff_eq] at h
  obtain ⟨⟨hcmd, hdst⟩, hnet⟩ := h
  obtain ⟨w, hw, hr⟩ := Addr_write_read hdst []
  rw [List.append_nil] at hr
  refine ⟨[Version, cmd, 0x00] ++ w, ?_, ?_⟩
  · simp only [Request.write]
    rw [hw]
  · rw [show ([Version, cmd, 0x00] ++ w) = Version :: cmd :: 0x00 :: w from rfl]
    simp only [Request.read, readBytes_cons3]
    rw [hnet] at hr
    simp [isSOCKS5, hcmd, hr]

theorem reply_roundtrip (r : Reply) (h : r.validB = true) :
    ∃ w, Reply.write r = some w ∧ Reply.read w = Except.ok (r, []) := by
  obtain ⟨rep, bnd⟩ := r
  simp only [Reply.validB, Bool.and_eq_true, beq_iff_eq] at h
  obtain ⟨⟨hrep, hbnd⟩, hnet⟩ := h
  obtain ⟨w, hw, hr⟩ := Addr_write_read hbnd []
  rw [List.append_nil] at hr
  refine ⟨[Version, rep, 0x00] ++ w, ?_, ?_⟩
  · simp only [Reply.write]
    rw [hw]
  · rw [show ([Version, rep, 0x00] ++ w) = Version :: rep :: 0x00 :: w from rfl]
    simp only [Reply.read, readBytes_cons3]
    rw [hnet] at hr
    simp [isSOCKS5, hrep, hr]

theorem udpHeader_roundtrip (h : UDPHeader) (hv : h.validB = true) :
    ∃ w, UDPHeader.write h = some w ∧ UDPHeader.read w = Except.ok h := by
  obtain ⟨frag, dst, data⟩ := h
  simp only [UDPHeader.validB, Bool.and_eq_true, beq_iff_eq, decide_eq_true_eq] at hv
  obtain ⟨⟨⟨hfrag, hdst⟩, hnet⟩, hdata⟩ := hv
  obtain ⟨w, hw, hr⟩ := Addr_write_read hdst data
  refine ⟨[0x00, 0x00, frag] ++ w ++ data, ?_, ?_⟩
  · simp only [UDPHeader.write]
    rw [hw]
  · rw [show ([0x00, 0x00, frag] ++ w ++ data) = 0x00 :: 0x00 :: frag :: (w ++ data)
      from by simp]
    simp only [UDPHeader.read, readBytes_cons3]
    rw [hnet] at hr
    simp [hr]

/-- C5: for every message type and every valid instance - ATYP among IPv4,
DOMAIN and IPv6, IP hosts in canonical textual form, domain, credential and
method-list lengths at most 255 - decoding the bytes produced by encoding the
instance yields the instance back, with no input left over. -/
theorem message_codecs_roundtrip :
    (∀ r : NegotiationRequest, r.validB = true →
      NegotiationRequest.read (NegotiationRequest.write r) = Except.ok (r, [])) ∧
    (∀ r : NegotiationReply, r.validB = true →
      NegotiationReply.read (NegotiationReply.write r) = Except.ok (r, [])) ∧
    (∀ r : PassRequest, r.validB = true →
      PassRequest.read (PassRequest.write r) = Except.ok (r, [])) ∧
    (∀ r : PassReply, r.validB = true →
      PassReply.read (PassReply.write r) = Except.ok (r, [])) ∧
    (∀ r : Request, r.validB = true →
      ∃ w, Request.write r = some w ∧ Request.read w = Except.ok (r, [])) ∧
    (∀ r : Reply, r.validB = true →
      ∃ w, Reply.write r = some w ∧ Reply.read w = Except.ok (r, [])) ∧
    (∀ h : UDPHeader, h.validB = true →
      ∃ w, UDPHeader.write h = some w ∧ UDPHeader.read w = Except.ok h) :=
  ⟨negReq_roundtrip, negRep_roundtrip, passReq_roundtrip, passRep_roundtrip,
   request_roundtrip, reply_roundtrip, udpHeader_roundtrip⟩

/-- C5 witness: concrete round trips covering all three ATYP variants - an
IPv4 CONNECT request, an IPv6 reply, a DOMAIN UDP header - and the
negotiation and password messages. -/
theorem message_codecs_roundtrip_witness :
    NegotiationRequest.read (NegotiationRequest.write ⟨[0x00, 0x02]⟩) =
      Except.ok (⟨[0x00, 0x02]⟩, []) ∧
    NegotiationReply.read (NegotiationReply.write ⟨0x02⟩) = Except.ok (⟨0x02⟩, []) ∧
    PassRequest.read (PassRequest.write ⟨gs "u", gs "p"⟩) =
      Except.ok (⟨gs "u", gs "p"⟩, []) ∧
    PassReply.read (PassReply.write ⟨0x00⟩) = Except.ok (⟨0x00⟩, []) ∧
    (∃ w, Request.write ⟨CmdConnect, ⟨gs "tcp", AddrIPV4, gs "127.0.0.1", 80⟩⟩ = some w ∧
      Request.read w =
        Except.ok (⟨CmdConnect, ⟨gs "tcp", AddrIPV4, gs "127.0.0.1", 80⟩⟩, [])) ∧
    (∃ w, Reply.write ⟨RepSucceeded, ⟨[], AddrIPv6, gs "2001:db8::1", 443⟩⟩ = some w ∧
      Reply.read w =
        Except.ok (⟨RepSucceeded, ⟨[], AddrIPv6, gs "2001:db8::1", 443⟩⟩, [])) ∧
    (∃ w, UDPHeader.write ⟨0x00, ⟨gs "udp", AddrDomain, gs "example.com", 53⟩, gs "hi"⟩ =
        some w ∧
      UDPHeader.read w =
        Except.ok ⟨0x00, ⟨gs "udp", AddrDomain, gs "example.com", 53⟩, gs "hi"⟩) :=
  ⟨message_codecs_roundtrip.1 ⟨[0x00, 0x02]⟩ (by rfl),
   message_codecs_roundtrip.2.1 ⟨0x02⟩ (by rfl),
   message_codecs_roundtrip.2.2.1 ⟨gs "u", gs "p"⟩ (by rfl),
   message_codecs_roundtrip.2.2.2.1 ⟨0x00⟩ (by rfl),
   message_codecs_roundtrip.2.2.2.2.1 ⟨CmdConnect, ⟨gs "tcp", AddrIPV4, gs "127.0.0.1", 80⟩⟩
     (by rfl),
   message_codecs_roundtrip.2.2.2.2.2.1
     ⟨RepSucceeded, ⟨[], AddrIPv6, gs "2001:db8::1", 443⟩⟩ (by rfl),
   message_codecs_roundtrip.2.2.2.2.2.2
     ⟨0x00, ⟨gs "udp", AddrDomain, gs "example.com", 53⟩, gs "hi"⟩ (by rfl)⟩

/-! ### Facts about the host-string parsers used for classification -/

/-- Join groups with a separator; inverse of splitOn. -/
def joinD (sep : Nat) : List (List Nat) → List Nat
  | [] => []
  | [g] => g
  | g :: rest => g ++ sep :: joinD sep rest

theorem splitOn_cons_of {sep : Nat} {s g : List Nat} {gl : List (List Nat)} (c : Nat)
    (h : splitOn sep s = g :: gl) :
    splitOn sep (c :: s) = if c = sep then [] :: g :: gl else (c :: g) :: gl := by
  rw [show splitOn sep (c :: s) = (match splitOn sep s with
    | [] => [[c]]
    | g :: gl => if c = sep then [] :: g :: gl else (c :: g) :: gl) from rfl, h]

theorem splitOn_ne_nil (sep : Nat) (s : List Nat) : splitOn sep s ≠ [] := by
  induction s with
  | nil => simp [splitOn]
  | cons c t ih =>
    cases h : splitOn sep t with
    | nil => exact absurd h ih
    | cons g rest =>
      rw [splitOn_cons_of c h]
      by_cases hc : c = sep <;> simp [hc]

theorem joinD_splitOn (sep : Nat) (s : List Nat) : joinD sep (splitOn sep s) = s := by
  induction s with
  | nil => rfl
  | cons c t ih =>
    cases h : splitOn sep t with
    | nil => exact absurd h (splitOn_ne_nil sep t)
    | cons g rest =>
      rw [h] at ih
      rw [splitOn_cons_of c h]
      by_cases hc : c = sep
      · rw [if_pos hc]
        subst hc
        rw [show joinD c ([] :: g :: rest) = [] ++ c :: joinD c (g :: rest) from rfl, ih]
        rfl
      · rw [if_neg hc]
        cases rest with
        | nil =>
          rw [show joinD sep [c :: g] = c :: g from rfl]
          rw [show joinD sep [g] = g from rfl] at ih
          rw [ih]
        | cons g2 rest2 =>
          rw [show joinD sep ((c :: g) :: g2 :: rest2) =
            (c :: g) ++ sep :: joinD sep (g2 :: rest2) from rfl]
          rw [show joinD sep (g :: g2 :: rest2) =
            g ++ sep :: joinD sep (g2 :: rest2) from rfl] at ih
          rw [List.cons_append, ih]

theorem v4Group_digits {g : List Nat} {v : Nat} (h : v4Group g = some v) :
    g ≠ [] ∧ g.all isDigit = true := by
  have hne : g ≠ [] := by
    intro hg
    subst hg
    simp [v4Group] at h
  refine ⟨hne, ?_⟩
  by_cases hall : g.all isDigit = true
  · exact hall
  · exfalso
    unfold v4Group at h
    rw [if_neg hne, if_pos (by simpa using hall)] at h
    simp at h

theorem firstSpecial_digits_dot (g t : List Nat) (hg : g.all isDigit = true) :
    firstSpecial (g ++ 46 :: t) = some 46 := by
  induction g with
  | nil => rfl
  | cons c g ih =>
    rw [List.all_cons, Bool.and_eq_true] at hg
    obtain ⟨hc, hg⟩ := hg
    rw [List.cons_append]
    rw [show firstSpecial (c :: (g ++ 46 :: t)) =
      if c = 46 ∨ c = 58 ∨ c = 37 then some c else firstSpecial (g ++ 46 :: t) from rfl]
    rw [if_neg]
    · exact ih hg
    · simp only [isDigit, Bool.and_eq_true, decide_eq_true_eq] at hc
      rintro (hx | hx | hx) <;> omega

theorem goTo4_v4InV6 (a b c d : Nat) :
    goTo4 (v4InV6 [a, b, c, d]) = some [a, b, c, d] := rfl

theorem goParseIPv4_some {s : GoString} {p4 : List Nat} (h : goParseIPv4 s = some p4) :
    p4.length = 4 ∧ firstSpecial s = some 46 := by
  unfold goParseIPv4 at h
  split at h
  next g1 g2 g3 g4 heq =>
    split at h
    next a b c d ha hb hc hd =>
      have hp : p4 = [a, b, c, d] := by simpa using h.symm
      subst hp
      refine ⟨rfl, ?_⟩
      have hshape : s = g1 ++ 46 :: (g2 ++ 46 :: (g3 ++ 46 :: g4)) := by
        have hj := joinD_splitOn 46 s
        rw [heq] at hj
        rw [← hj]
        rfl
      rw [hshape]
      exact firstSpecial_digits_dot g1 _ (v4Group_digits ha).2
    next => exact absurd h (by simp)
  next => exact absurd h (by simp)

theorem v6Finish_length {bytes out : List Nat} {ell : Option Nat}
    (h : v6Finish bytes ell = some out) : out.length = 16 := by
  unfold v6Finish at h
  split_ifs at h with h1 h2
  · cases ell with
    | none => simp at h
    | some e =>
      simp only [Option.some.injEq] at h
      rw [← h]
      simp only [List.length_append, List.length_take, List.length_drop,
        List.length_replicate]
      rcases Nat.le_total e bytes.length with he | he
      · rw [Nat.min_eq_left he]
        omega
      · rw [Nat.min_eq_right he]
        omega
  · cases ell with
    | none =>
      simp only [Option.some.injEq] at h
      rw [← h]
      exact h2
    | some e => simp at h

theorem v6Loop_length :
    ∀ (fuel : Nat) (s bytes : List Nat) (ell : Option Nat) (out : List Nat),
      v6Loop fuel s bytes ell = some out → out.length = 16 := by
  intro fuel
  induction fuel with
  | zero =>
    intro s bytes ell out h
    simp [v6Loop] at h
  | succ n ih =>
    intro s bytes ell out h
    rw [v6Loop] at h
    by_cases h16 : bytes.length ≥ 16
    · rw [if_pos h16] at h
      by_cases hs : s = []
      · rw [if_pos hs] at h
        exact v6Finish_length h
      · rw [if_neg hs] at h
        simp at h
    · rw [if_neg h16] at h
      split at h
      · simp at h
      · rename_i acc cnt rest htk
        by_cases hc : cnt = 0
        · rw [if_pos hc] at h
          simp at h
        · rw [if_neg hc] at h
          split at h
          · split_ifs at h with hcond
            cases hip4 : goParseIPv4 s with
            | none => rw [hip4] at h; simp at h
            | some ip4 => rw [hip4] at h; exact v6Finish_length h
          · exact v6Finish_length h
          · simp at h
          · split_ifs at h with he hr
            · exact v6Finish_length h
            · exact ih _ _ _ _ h
          · exact ih _ _ _ _ h
          · simp at h

theorem goParseIPv6_length {s : GoString} {ip : List Nat}
    (h : goParseIPv6 s = some ip) : ip.length = 16 := by
  unfold goParseIPv6 at h
  split_ifs at h
  split at h
  · split_ifs at h with hr
    · simp only [Option.some.injEq] at h
      rw [← h]
      simp
    · exact v6Loop_length _ _ _ _ _ h
  · exact v6Loop_length _ _ _ _ _ h

theorem goParseIP_length {s : GoString} {ip : List Nat}
    (h : goParseIP s = some ip) : ip.length = 16 := by
  unfold goParseIP at h
  split at h
  · cases h4 : goParseIPv4 s with
    | none => rw [h4] at h; simp at h
    | some p4 =>
      rw [h4] at h
      have h2 : v4InV6 p4 = ip := by simpa using h
      rw [← h2]
      have hl := (goParseIPv4_some h4).1
      simp [v4InV6, v4InV6Pad, hl]
  · exact goParseIPv6_length h
  · simp at h

theorem digits_lastIndexOf_none {s : List Nat} (hs : s.all isDigit = true)
    {c : Nat} (hc : isDigit c = false) : lastIndexOf c s = none := by
  induction s with
  | nil => rfl
  | cons x t ih =>
    rw [List.all_cons, Bool.and_eq_true] at hs
    obtain ⟨hx, ht⟩ := hs
    rw [show lastIndexOf c (x :: t) = (match lastIndexOf c t with
      | some i => some (i + 1)
      | none => if x = c then some 0 else none) from rfl]
    rw [ih ht]
    rw [if_neg]
    intro he
    rw [he, hc] at hx
    exact absurd hx (by simp)

theorem digits_not_mem {s : List Nat} (hs : s.all isDigit = true)
    {c : Nat} (hc : isDigit c = false) : c ∉ s := by
  intro hmem
  induction s with
  | nil => simp at hmem
  | cons x t ih =>
    rw [List.all_cons, Bool.and_eq_true] at hs
    obtain ⟨hx, ht⟩ := hs
    rcases List.mem_cons.mp hmem with he | hmem2
    · rw [← he, hc] at hx
      exact absurd hx (by simp)
    · exact ih ht hmem2

theorem digits_not_contains {s : List Nat} (hs : s.all isDigit = true)
    {c : Nat} (hc : isDigit c = false) : s.contains c = false := by
  induction s with
  | nil => rfl
  | cons x t ih =>
    rw [List.all_cons, Bool.and_eq_true] at hs
    obtain ⟨hx, ht⟩ := hs
    have hxc : (c == x) = false := by
      rw [beq_eq_false_iff_ne]
      intro he
      rw [← he, hc] at hx
      exact absurd hx (by simp)
    rw [show (x :: t).contains c = ((c == x) || t.contains c) from rfl]
    rw [hxc, ih ht]
    rfl

theorem goTo4_v4InV6_len {p4 : List Nat} (h : p4.length = 4) :
    goTo4 (v4InV6 p4) = some p4 := by
  unfold goTo4
  rw [if_neg, if_pos]
  · rw [show (12 : Nat) = v4InV6Pad.length from rfl,
      show v4InV6 p4 = v4InV6Pad ++ p4 from rfl, List.drop_left]
  · refine ⟨?_, ?_, ?_, ?_⟩
    · simp [v4InV6, v4InV6Pad, h]
    · rw [show v4InV6 p4 = v4InV6Pad ++ p4 from rfl, List.take_append_eq_append_take]
      rfl
    · rfl
    · rfl
  · simp [v4InV6, v4InV6Pad, h]

/-- C9: host classification.  Every dotted-decimal IPv4 literal classifies as
AddrIPV4; every IP literal whose parsed address is not an IPv4 address (To4
fails) classifies as AddrIPv6; every string that is not an IP literal
classifies as AddrDomain; and ParseAddr rewrites an empty host to 0.0.0.0,
which classifies as IPv4.  (An IPv6-notation literal that denotes a v4-mapped
address, such as ::ffff:1.2.3.4, is an IPv4 address - To4 succeeds - and so
classifies as IPv4, as the code's To4-first dispatch prescribes.) -/
theorem parseAtyp_classification :
    (∀ h : GoString, (goParseIPv4 h).isSome = true → parseAtyp h = AddrIPV4) ∧
    (∀ (h : GoString) (ip : List Nat), goParseIP h = some ip → goTo4 ip = none →
      parseAtyp h = AddrIPv6) ∧
    (∀ h : GoString, goParseIP h = none → parseAtyp h = AddrDomain) ∧
    (∀ (network portStr : GoString) (p : Nat), goParseUint16 portStr = some p →
      ParseAddr network (58 :: portStr) =
        some ⟨network, AddrIPV4, gs "0.0.0.0", p⟩) := by
  refine ⟨?_, ?_, ?_, ?_⟩
  · intro h hp
    rw [Option.isSome_iff_exists] at hp
    obtain ⟨p4, hp4⟩ := hp
    obtain ⟨hlen, hfs⟩ := goParseIPv4_some hp4
    have hip : goParseIP h = some (v4InV6 p4) := by
      have hd : goParseIP h = (goParseIPv4 h).map v4InV6 := by
        unfold goParseIP
        rw [hfs]
      rw [hd, hp4]
      rfl
    simp only [parseAtyp, hip]
    rw [goTo4_v4InV6_len hlen]
    simp
  · intro h ip hip h4
    have hlen := goParseIP_length hip
    have h16 : goTo16 ip = some ip := by
      unfold goTo16
      rw [if_neg (by omega), if_pos hlen]
    simp only [parseAtyp, hip]
    rw [h4, h16]
    simp
  · intro h hp
    simp [parseAtyp, hp]
  · intro network portStr p hp
    have hne : portStr ≠ [] := by
      intro he
      rw [he] at hp
      simp [goParseUint16] at hp
    have hd : portStr.all isDigit = true := by
      by_contra hall
      have hfalse : portStr.all isDigit = false := by
        cases hx : portStr.all isDigit
        · rfl
        · exact absurd hx hall
      rw [goParseUint16, if_neg hne, if_pos (by rw [hfalse]; rfl)] at hp
      simp at hp
    have hli : lastIndexOf 58 portStr = none := digits_lastIndexOf_none hd (by rfl)
    have hm91 : 91 ∉ portStr := digits_not_mem hd (by rfl)
    have hm93 : 93 ∉ portStr := digits_not_mem hd (by rfl)
    have hl0 : lastIndexOf 58 (58 :: portStr) = some 0 := by
      rw [show lastIndexOf 58 (58 :: portStr) = (match lastIndexOf 58 portStr with
        | some i => some (i + 1)
        | none => if (58 : Nat) = 58 then some 0 else none) from rfl, hli]
      rfl
    have hsplit : goSplitHostPort (58 :: portStr) = some ([], portStr) := by
      simp only [goSplitHostPort, hl0]
      rw [if_neg (by simp)]
      simp [List.contains_cons, hm91, hm93]
    simp only [ParseAddr, hsplit]
    simp [hp, show parseAtyp (gs "0.0.0.0") = AddrIPV4 from rfl]

/-- C9 witness: 127.0.0.1 classifies as IPv4, ::1 as IPv6, example.com as a
domain, and ParseAddr on an empty host with port 80 yields IPv4 0.0.0.0:80. -/
theorem parseAtyp_classification_witness :
    parseAtyp (gs "127.0.0.1") = AddrIPV4 ∧
    parseAtyp (gs "::1") = AddrIPv6 ∧
    parseAtyp (gs "example.com") = AddrDomain ∧
    ParseAddr (gs "tcp") (58 :: gs "80") =
      some ⟨gs "tcp", AddrIPV4, gs "0.0.0.0", 80⟩ :=
  ⟨parseAtyp_classification.1 (gs "127.0.0.1") (by rfl),
   parseAtyp_classification.2.1 (gs "::1")
     [0, 0, 0, 0, 0, 0, 0, 0, 0, 0, 0, 0, 0, 0, 0, 1] (by rfl) (by rfl),
   parseAtyp_classification.2.2.1 (gs "example.com") (by rfl),
   parseAtyp_classification.2.2.2 (gs "tcp") (gs "80") 80 (by rfl)⟩
